import Mathlib

/-!
Verification of the RecallBricks documentation examples.

The repository under verification consists of five Python example scripts
(basic-crud.py, weighted-search.py, chatbot-memory.py, predictive-recall.py,
multi-agent.py) that call a remote memory service through the recallbricks
SDK.  The service itself (storage, search ranking, prediction, reputation) is
not part of the repository; the spec documents the client-facing contract the
examples rely on.  Accordingly:

* The memory-store operations (create, get, update, delete, list, search) and
  the confidence/reputation bounds are modelled from the spec (sections 3, 4
  and 8) and each such definition is marked "Modelled from the spec".
* The Python logic that does live in the repository (the chatbot response
  generator and message handler, the predictive-recall hybrid step, and each
  script's top-level error handler) is embedded directly from the source.
-/

namespace RecallBricks

/-- A metadata value: the examples store strings, integers (turn numbers) and
fractional confidence values in memory metadata. -/
inductive MValue where
  | str : String → MValue
  | num : Nat → MValue
  | rat : ℚ → MValue
deriving DecidableEq

/-- Metadata is a mapping of string keys to values (spec section 3); modelled
as an association list where the first occurrence of a key wins. -/
abbrev Metadata := List (String × MValue)

/-- Look a key up in a metadata association list (first occurrence wins). -/
def lookupMeta : Metadata → String → Option MValue
  | [], _ => none
  | p :: rest, k => if p.1 = k then some p.2 else lookupMeta rest k

/-- A stored memory record (spec section 3): id, content, metadata and a
creation timestamp. -/
structure Memory where
  id : Nat
  content : String
  metadata : Metadata
  created_at : String

/-- The generic error condition reported by the service: a message plus an
error code field (spec section 7; basic-crud.py lines 169-176 and 189-193
read exactly these two attributes). -/
structure MemErr where
  message : String
  code : String

/-- The not-found error condition: basic-crud.py line 173 checks for the
code MEMORY_NOT_FOUND after deleting then re-fetching a memory. -/
def memNotFound (id : Nat) : MemErr :=
  { message := "Memory not found: " ++ toString id, code := "MEMORY_NOT_FOUND" }

/-- Error used when create is called with empty content (spec section 4.1:
"fails if content empty (inferred, not shown)"). -/
def emptyContentErr : MemErr :=
  { message := "Content must not be empty", code := "EMPTY_CONTENT" }

/-- Modelled from the spec: the state of the remote Memory Store, which is not
part of this repository.  It persists content + metadata records (spec
section 2); nextId supplies fresh ids (spec section 3: "memory id is unique
and stable") and clock supplies creation timestamps. -/
structure Store where
  mems : List Memory
  nextId : Nat
  clock : Nat

/-- Modelled from the spec (section 4.1): create(content, metadata) -> Memory;
fails if content is empty; the new record carries the supplied content and
metadata and a populated created_at timestamp (spec section 8). -/
def create (s : Store) (content : String) (metadata : Metadata) :
    Except MemErr (Store × Memory) :=
  if content = "" then
    Except.error emptyContentErr
  else
    let m : Memory :=
      { id := s.nextId, content := content, metadata := metadata,
        created_at := "ts-" ++ toString s.clock }
    Except.ok ({ mems := m :: s.mems, nextId := s.nextId + 1, clock := s.clock + 1 }, m)

/-- Modelled from the spec (section 4.1): get(id) -> Memory; fails with a
not-found condition when the id does not exist. -/
def get (s : Store) (id : Nat) : Except MemErr Memory :=
  match s.mems.find? (fun m => m.id == id) with
  | some m => Except.ok m
  | none => Except.error (memNotFound id)

/-- Modelled from the spec (section 4.1): delete(id) -> void; removes the
record with the given id, "after which retrieval fails with a not-found
condition" (spec section 3). -/
def delete (s : Store) (id : Nat) : Store :=
  { s with mems := s.mems.filter (fun m => m.id != id) }

/-- Metadata merge used by update: keys supplied in the update override, keys
absent from the update keep their existing values (spec section 3: "update
semantics: metadata appears to merge with existing, not replace"). -/
def mergeMeta (nm old : Metadata) : Metadata :=
  nm ++ old.filter (fun p => (lookupMeta nm p.1).isNone)

/-- Modelled from the spec (section 4.1): update(id, content?, metadata?) ->
Memory; partial update of an existing record: absent fields are preserved and
supplied metadata merges with the existing metadata. -/
def update (s : Store) (id : Nat) (newContent : Option String)
    (newMetadata : Option Metadata) : Except MemErr (Store × Memory) :=
  match s.mems.find? (fun m => m.id == id) with
  | none => Except.error (memNotFound id)
  | some m =>
    let m2 : Memory :=
      { m with
        content := newContent.getD m.content,
        metadata :=
          match newMetadata with
          | some nm => mergeMeta nm m.metadata
          | none => m.metadata }
    Except.ok ({ s with mems := s.mems.map (fun x => if x.id == id then m2 else x) }, m2)

/-- A scored search result (spec section 3): wraps a memory plus score,
semantic_score and recency_score. -/
structure SearchResult where
  mem : Memory
  score : ℚ
  semantic_score : ℚ
  recency_score : ℚ

/-- Results are rank-ordered descending by score (spec section 3): a is
allowed to precede b when the score of b is not larger. -/
def scoreGE (a b : SearchResult) : Prop := b.score ≤ a.score

/-- Insert a result into a list that is already sorted by non-increasing
score, keeping it sorted. -/
def insertDesc (r : SearchResult) : List SearchResult → List SearchResult
  | [] => [r]
  | x :: xs => if r.score ≤ x.score then x :: insertDesc r xs else r :: x :: xs

/-- Sort results by non-increasing score (insertion sort). -/
def sortDesc : List SearchResult → List SearchResult
  | [] => []
  | x :: xs => insertDesc x (sortDesc xs)

/-- Build one search result.  The spec (section 4.2) leaves the exact
combination formula out of this repository, so the combination of the two
sub-scores under the caller weights is a parameter, as is the scoring of a
memory against the query. -/
def mkResult (weights : ℚ × ℚ) (combine : ℚ × ℚ → ℚ × ℚ → ℚ)
    (scoreFn : Memory → ℚ × ℚ) (m : Memory) : SearchResult :=
  let sub := scoreFn m
  { mem := m, semantic_score := sub.1, recency_score := sub.2,
    score := combine weights sub }

/-- Modelled from the spec (sections 3 and 4.2): search returns scored
results, rank-ordered descending by score and optionally filtered by a
minimum score threshold; the semantic/recency scoring and the weight
combination formula are external and therefore parameters. -/
def search (mems : List Memory) (scoreFn : Memory → ℚ × ℚ)
    (combine : ℚ × ℚ → ℚ × ℚ → ℚ) (weights : ℚ × ℚ) (limit : Nat)
    (min_score : Option ℚ) : List SearchResult :=
  let scored := mems.map (mkResult weights combine scoreFn)
  let filtered :=
    match min_score with
    | some t => scored.filter (fun r => decide (t ≤ r.score))
    | none => scored
  (sortDesc filtered).take limit

/-- Pagination fields returned by list (spec section 4.1): total, page,
totalPages (basic-crud.py lines 148-153 also reads them). -/
structure Pagination where
  total : Nat
  page : Nat
  totalPages : Nat

/-- The result of a list call: a page of data plus pagination fields. -/
structure ListResult where
  data : List Memory
  pagination : Pagination

/-- Modelled from the spec (section 4.1): list(page, limit, sort) returns one
page of the stored records together with pagination fields.  The sort key
semantics are unspecified by the examples, so the sort argument does not
affect the model; pages are 1-based as in basic-crud.py line 143. -/
def list (s : Store) (page limit : Nat) (sort : String) : ListResult :=
  let total := s.mems.length
  { data := (s.mems.drop ((page - 1) * limit)).take limit,
    pagination :=
      { total := total, page := page, totalPages := (total + limit - 1) / limit } }

/-- Membership in the closed unit interval, the bound the spec (sections 3
and 8) imposes on every reputation score and confidence value. -/
def inUnitInterval (x : ℚ) : Prop := 0 ≤ x ∧ x ≤ 1

/-- Modelled from the spec (section 3 invariants): the service keeps
reputation and confidence values bounded in [0, 1]; raw values supplied by
agents (for example the confidence fields in multi-agent.py metadata) are
normalised into the unit interval on ingestion. -/
def clamp01 (x : ℚ) : ℚ := max 0 (min 1 x)

/-- Modelled from the spec (sections 2 and 3): a per-agent reputation is a
quality score derived from the agent's contribution history, here the mean of
the normalised confidences of its contributions; an empty history scores 0. -/
def reputationOf (confs : List ℚ) : ℚ :=
  ((confs.map clamp01).sum) / (confs.length : ℚ)

/-- Modelled from the spec (section 3 and glossary): synthesis aggregates the
contributions with a reputation-weighted confidence; each contribution is a
pair of the contributing agent's reputation and the contribution's
confidence, both normalised on ingestion. -/
def aggregateConfidence (contribs : List (ℚ × ℚ)) : ℚ :=
  ((contribs.map (fun p => clamp01 p.1 * clamp01 p.2)).sum)
    / ((contribs.map (fun p => clamp01 p.1)).sum)

/-- A memory suggested by the prediction service (spec section 3): content
plus its own confidence and reasoning. -/
structure SuggestedMemory where
  id : Nat
  content : String
  confidence : ℚ
  reasoning : String

/-- Whether the character list starting here begins with the needle. -/
def charListBeginsWith : List Char → List Char → Bool
  | [], _ => true
  | _ :: _, [] => false
  | c :: cs, d :: ds => c = d && charListBeginsWith cs ds

/-- Whether the needle occurs somewhere in the haystack. -/
def charListHasSub (needle : List Char) : List Char → Bool
  | [] => charListBeginsWith needle []
  | d :: ds => charListBeginsWith needle (d :: ds) || charListHasSub needle ds

/-- The Python `needle in haystack` test on strings. -/
def strHasSub (haystack needle : String) : Bool :=
  charListHasSub needle.toList haystack.toList

/-- Embedded from chatbot-memory.py lines 209-221: the simulated response
generator.  It lowercases the message and picks a canned reply by substring
matching; the context argument (the retrieved memories) is never consulted. -/
def generate_response (message : String) (context : List SuggestedMemory) : String :=
  let message_lower := message.toLower
  if strHasSub message_lower "api design" then
    "Best practices for API design include: RESTful principles, versioning, clear documentation, consistent naming, and proper error handling."
  else if strHasSub message_lower "authentication" then
    "For authentication, I recommend using OAuth 2.0 or JWT tokens. Bearer tokens in the Authorization header are standard practice."
  else if strHasSub message_lower "code example" then
    "Here\x27s a quick example: Authorization: Bearer your_token_here"
  else
    "I can help you with that! Let me provide some information based on your preferences for concise responses."

/-- Embedded from chatbot-memory.py line 20: the module-level user id. -/
def user_id : String := "user_12345"

/-- Embedded from chatbot-memory.py line 21: the module-level session id,
derived from the process start time. -/
def session_id (startTime : Nat) : String := "session_" ++ toString startTime

/-- One element of a create_batch request: content plus metadata, as passed
by the example scripts. -/
structure CreateItem where
  content : String
  metadata : Metadata

/-- A RecallBricks API call issued by handle_message, in order: the
metacognition predict call and the memories create_batch call. -/
inductive ApiCall where
  | predictCall : String → Nat → ℚ → ApiCall
  | createBatchCall : List CreateItem → ApiCall

/-- Embedded from chatbot-memory.py lines 158-207: one chatbot turn as the
sequence of RecallBricks API calls it issues.  The prediction result and the
two utcnow timestamps come from outside, so they are parameters; the printed
narration is not modelled. -/
def handle_message (startTime : Nat) (user_message : String) (turn_number : Nat)
    (suggested_memories : List SuggestedMemory) (ts1 ts2 : String) : List ApiCall :=
  let bot_response := generate_response user_message suggested_memories
  [ ApiCall.predictCall
      ("\n            User message: \"" ++ user_message
        ++ "\"\n            Turn: " ++ toString turn_number
        ++ "\n            User ID: " ++ user_id
        ++ "\n            Session ID: " ++ session_id startTime
        ++ "\n        ")
      3 (7/10),
    ApiCall.createBatchCall
      [ { content := "User asked: \"" ++ user_message ++ "\"",
          metadata := [("user_id", MValue.str user_id),
                       ("session_id", MValue.str (session_id startTime)),
                       ("turn", MValue.num turn_number),
                       ("type", MValue.str "user_message"),
                       ("timestamp", MValue.str ts1)] },
        { content := "Bot responded: \"" ++ bot_response ++ "\"",
          metadata := [("user_id", MValue.str user_id),
                       ("session_id", MValue.str (session_id startTime)),
                       ("turn", MValue.num turn_number),
                       ("type", MValue.str "bot_message"),
                       ("timestamp", MValue.str ts2)] } ] ]

/-- The create_batch requests contained in a call trace. -/
def createBatchesOf (calls : List ApiCall) : List (List CreateItem) :=
  calls.filterMap (fun c =>
    match c with
    | ApiCall.createBatchCall items => some items
    | _ => none)

/-- The action taken by the hybrid step of predictive-recall.py: either use
the predicted memories directly or fall back to a traditional search. -/
inductive HybridAction where
  | usePredicted : List SuggestedMemory → HybridAction
  | fallbackSearch : String → Nat → HybridAction

/-- Embedded from predictive-recall.py lines 135-155: keep the suggested
memories whose confidence exceeds 0.9; when there are any, use them directly,
otherwise fall back to memories.search with the query "rate limits" and
limit 3. -/
def hybridStep (suggested_memories : List SuggestedMemory) : HybridAction :=
  let high_confidence :=
    suggested_memories.filter (fun m => decide ((9:ℚ)/10 < m.confidence))
  if high_confidence.isEmpty then
    HybridAction.fallbackSearch "rate limits" 3
  else
    HybridAction.usePredicted high_confidence

/-- An exception as observed by the example handlers: a message plus an
optional code attribute. -/
structure PyError where
  message : String
  code : Option String

/-- What a top-level handler does: the lines it prints and the exit status it
ends the process with. -/
structure HandlerResult where
  printed : List String
  exitStatus : Nat

/-- Embedded from basic-crud.py lines 189-193: print the message, print the
code when the exception has one, exit(1). -/
def basicCrudTopHandler (e : PyError) : HandlerResult :=
  { printed := ["❌ Error: " ++ e.message] ++
      (match e.code with
       | some c => ["   Code: " ++ c]
       | none => []),
    exitStatus := 1 }

/-- Embedded from multi-agent.py lines 262-266: print the message, print the
code when the exception has one, exit(1). -/
def multiAgentTopHandler (e : PyError) : HandlerResult :=
  { printed := ["❌ Error: " ++ e.message] ++
      (match e.code with
       | some c => ["   Code: " ++ c]
       | none => []),
    exitStatus := 1 }

/-- Embedded from predictive-recall.py lines 214-218: print the message (the
source file carries a mangled emoji in this literal, reproduced as is), print
the code when the exception has one, exit(1). -/
def predictiveRecallTopHandler (e : PyError) : HandlerResult :=
  { printed := ["‚ùå Error: " ++ e.message] ++
      (match e.code with
       | some c => ["   Code: " ++ c]
       | none => []),
    exitStatus := 1 }

/-- Embedded from chatbot-memory.py lines 154-156: print the message only,
then exit(1); the code attribute is never printed. -/
def chatbotTopHandler (e : PyError) : HandlerResult :=
  { printed := ["❌ Error: " ++ e.message], exitStatus := 1 }

/-- Embedded from weighted-search.py lines 243-245: print the message only,
then exit(1); the code attribute is never printed. -/
def weightedSearchTopHandler (e : PyError) : HandlerResult :=
  { printed := ["❌ Error: " ++ e.message], exitStatus := 1 }

/-- The line an example prints when it reports an error code. -/
def printsCode (out : List String) (c : String) : Prop :=
  ("   Code: " ++ c) ∈ out

/-- Concrete memory used to exercise the search and list theorems. -/
def wMemA : Memory :=
  { id := 10, content := "User prefers dark mode interface",
    metadata := [("category", MValue.str "user_preferences")],
    created_at := "ts-1" }

/-- Second concrete memory used to exercise the search and list theorems. -/
def wMemB : Memory :=
  { id := 11, content := "User timezone is PST (UTC-8)",
    metadata := [("category", MValue.str "user_preferences")],
    created_at := "ts-2" }

/-- Third concrete memory used to exercise the list theorem. -/
def wMemC : Memory :=
  { id := 12, content := "User last logged in from San Francisco",
    metadata := [("category", MValue.str "user_activity")],
    created_at := "ts-3" }

/-- Concrete sub-score assignment used to exercise the search theorem. -/
def wScoreFn : Memory → ℚ × ℚ := fun _ => (1, 1/2)

/-- Concrete weighted combination used to exercise the search theorem. -/
def wCombine : ℚ × ℚ → ℚ × ℚ → ℚ := fun w sub => w.1 * sub.1 + w.2 * sub.2

/-- Concrete three-memory store used to exercise the list theorem. -/
def wStore3 : Store := { mems := [wMemA, wMemB, wMemC], nextId := 13, clock := 4 }

/-- Concrete memory used to exercise the update theorem. -/
def wMemUpd : Memory :=
  { id := 0, content := "User prefers dark mode interface",
    metadata := [("category", MValue.str "user_preferences"),
                 ("importance", MValue.str "high")],
    created_at := "ts-0" }

/-- Concrete one-memory store used to exercise the update theorem. -/
def wStore4 : Store := { mems := [wMemUpd], nextId := 1, clock := 1 }

/-- Concrete empty store used to exercise the create/get theorem. -/
def wStore5 : Store := { mems := [], nextId := 0, clock := 0 }

/-- The memory that create yields on the empty store. -/
def wMem5 : Memory :=
  { id := 0, content := "User prefers dark mode interface",
    metadata := [("category", MValue.str "user_preferences")],
    created_at := "ts-" ++ toString 0 }

/-- The store state after the concrete create. -/
def wStore5b : Store := { mems := [wMem5], nextId := 1, clock := 1 }

/-- Concrete high-confidence suggested memory used to exercise the hybrid
step theorem. -/
def wSug : SuggestedMemory :=
  { id := 4, content := "Rate limits: Tier 1 = 10 req/sec, Tier 2 = 50 req/sec",
    confidence := 19/20, reasoning := "matches current context" }

end RecallBricks

namespace RecallBricks

theorem lookupMeta_append_of_left_none (a b : Metadata) (k : String)
    (h : lookupMeta a k = none) : lookupMeta (a ++ b) k = lookupMeta b k := by
  induction a with
  | nil => rfl
  | cons p ps ih =>
    rw [lookupMeta] at h
    by_cases hp : p.1 = k
    · rw [if_pos hp] at h
      exact absurd h (by simp)
    · rw [if_neg hp] at h
      rw [List.cons_append, lookupMeta, if_neg hp]
      exact ih h

theorem lookupMeta_filter_kept (nm old : Metadata) (k : String)
    (h : lookupMeta nm k = none) :
    lookupMeta (old.filter (fun p => (lookupMeta nm p.1).isNone)) k
      = lookupMeta old k := by
  induction old with
  | nil => rfl
  | cons p ps ih =>
    by_cases hp : p.1 = k
    · have hkeep : (fun q : String × MValue => (lookupMeta nm q.1).isNone) p = true := by
        simp only [hp, h]
        rfl
      rw [List.filter_cons, if_pos hkeep, lookupMeta, if_pos hp, lookupMeta, if_pos hp]
    · by_cases hkeep : (fun q : String × MValue => (lookupMeta nm q.1).isNone) p = true
      · rw [List.filter_cons, if_pos hkeep, lookupMeta, if_neg hp, lookupMeta, if_neg hp]
        exact ih
      · rw [List.filter_cons, if_neg hkeep, lookupMeta, if_neg hp]
        exact ih

theorem lookupMeta_mergeMeta_of_not_supplied (nm old : Metadata) (k : String)
    (h : lookupMeta nm k = none) :
    lookupMeta (mergeMeta nm old) k = lookupMeta old k := by
  rw [mergeMeta, lookupMeta_append_of_left_none _ _ _ h, lookupMeta_filter_kept _ _ _ h]

/-- Claim C1: after delete(id), get(id) fails with an error condition carrying
the code MEMORY_NOT_FOUND rather than returning a memory. -/
theorem c1_get_after_delete_not_found (s : Store) (id : Nat) :
    get (delete s id) id = Except.error (memNotFound id) ∧
    (memNotFound id).code = "MEMORY_NOT_FOUND" := by
  constructor
  · have hnone : (s.mems.filter (fun m => m.id != id)).find? (fun m => m.id == id)
        = none := by
      rw [List.find?_eq_none]
      intro x hx
      have hx2 := (List.mem_filter.1 hx).2
      simp only [bne_iff_ne, ne_eq] at hx2
      simp [hx2]
    rw [get, delete]
    simp only [hnone]
  · rfl

/-- Claim C5: a successful create(content, metadata) followed by get on the
returned id yields a memory with identical content and metadata and a
populated (non-empty) created_at timestamp. -/
theorem c5_create_then_get_roundtrip (s : Store) (content : String)
    (md : Metadata) (s2 : Store) (m : Memory)
    (h : create s content md = Except.ok (s2, m)) :
    get s2 m.id = Except.ok m ∧ m.content = content ∧ m.metadata = md ∧
    m.created_at ≠ "" := by
  rw [create] at h
  by_cases hc : content = ""
  · rw [if_pos hc] at h
    exact absurd h (by simp)
  · rw [if_neg hc] at h
    injection h with h2
    injection h2 with hs2 hm
    subst hs2
    subst hm
    refine ⟨?_, rfl, rfl, ?_⟩
    · rw [get]
      rw [List.find?_cons_of_pos _ (by simp)]
    · intro he
      have hlen := congrArg String.length he
      rw [String.length_append] at hlen
      have h3 : ("ts-" : String).length = 3 := by decide
      have h0 : ("" : String).length = 0 := rfl
      omega

/-- Claim C4: update on an existing memory preserves the fields not supplied
in the call; in particular a metadata key present before the update and
absent from the supplied metadata keeps its old value (metadata merges with
the existing metadata rather than replacing it). -/
theorem c4_update_preserves_unsupplied_fields (s : Store) (id : Nat)
    (newContent : Option String) (nm : Metadata) (k : String) (v : MValue)
    (m : Memory) (hget : get s id = Except.ok m)
    (hold : lookupMeta m.metadata k = some v)
    (hnew : lookupMeta nm k = none) :
    ∃ s2 m2, update s id newContent (some nm) = Except.ok (s2, m2) ∧
      m2.id = m.id ∧ m2.created_at = m.created_at ∧
      (newContent = none → m2.content = m.content) ∧
      lookupMeta m2.metadata k = some v := by
  rw [get] at hget
  rcases hfind : s.mems.find? (fun x => x.id == id) with _ | x
  · rw [hfind] at hget
    exact absurd hget (by simp)
  · rw [hfind] at hget
    have hxm : x = m := by injection hget
    subst hxm
    rw [update, hfind]
    refine ⟨_, _, rfl, rfl, rfl, ?_, ?_⟩
    · intro hnc
      subst hnc
      rfl
    · show lookupMeta (mergeMeta nm x.metadata) k = some v
      rw [lookupMeta_mergeMeta_of_not_supplied _ _ _ hnew]
      exact hold

theorem mem_insertDesc (r x : SearchResult) (l : List SearchResult) :
    x ∈ insertDesc r l ↔ x = r ∨ x ∈ l := by
  induction l with
  | nil => simp [insertDesc]
  | cons y ys ih =>
    by_cases h : r.score ≤ y.score <;> simp [insertDesc, h, ih] <;> tauto

theorem sorted_insertDesc (r : SearchResult) (l : List SearchResult)
    (hl : List.Sorted scoreGE l) : List.Sorted scoreGE (insertDesc r l) := by
  induction l with
  | nil => simp [insertDesc, scoreGE]
  | cons y ys ih =>
    rw [List.sorted_cons] at hl
    by_cases h : r.score ≤ y.score
    · rw [insertDesc, if_pos h, List.sorted_cons]
      refine ⟨fun b hb => ?_, ih hl.2⟩
      rcases (mem_insertDesc r b ys).1 hb with rfl | hb
      · exact h
      · exact hl.1 b hb
    · rw [insertDesc, if_neg h, List.sorted_cons]
      refine ⟨fun b hb => ?_, ?_⟩
      · rcases List.mem_cons.1 hb with rfl | hb
        · exact le_of_lt (lt_of_not_le h)
        · exact le_trans (hl.1 b hb) (le_of_lt (lt_of_not_le h))
      · rw [List.sorted_cons]
        exact hl

theorem sorted_sortDesc (l : List SearchResult) : List.Sorted scoreGE (sortDesc l) := by
  induction l with
  | nil => simp [sortDesc]
  | cons x xs ih => exact sorted_insertDesc x (sortDesc xs) ih

theorem mem_sortDesc (x : SearchResult) (l : List SearchResult) :
    x ∈ sortDesc l ↔ x ∈ l := by
  induction l with
  | nil => simp [sortDesc]
  | cons y ys ih => rw [sortDesc, mem_insertDesc, ih, List.mem_cons]

/-- Claim C2: every search call returns results sorted in non-increasing order
of the score field, and when a min_score threshold is supplied every returned
result has score at least the threshold. -/
theorem c2_search_sorted_and_min_score (mems : List Memory)
    (scoreFn : Memory → ℚ × ℚ) (combine : ℚ × ℚ → ℚ × ℚ → ℚ)
    (weights : ℚ × ℚ) (limit : Nat) (min_score : Option ℚ) :
    List.Sorted scoreGE (search mems scoreFn combine weights limit min_score) ∧
    ∀ t, min_score = some t →
      ∀ r ∈ search mems scoreFn combine weights limit min_score, t ≤ r.score := by
  constructor
  · exact List.Pairwise.sublist (List.take_sublist _ _) (sorted_sortDesc _)
  · intro t ht r hr
    subst ht
    rw [search] at hr
    have hr2 := List.take_subset _ _ hr
    have hr3 := (mem_sortDesc _ _).1 hr2
    have hr4 := (List.mem_filter.1 hr3).2
    exact of_decide_eq_true hr4

theorem ceil_rat_of_nat_div (a b : Nat) (hb : 0 < b) :
    ⌈(a : ℚ) / (b : ℚ)⌉₊ = (a + b - 1) / b := by
  rcases Nat.eq_zero_or_pos a with ha | ha
  · subst ha
    have h1 : (b - 1) / b = 0 := Nat.div_eq_of_lt (by omega)
    simp [h1]
  · have h1 : (a + b - 1) / b * b + (a + b - 1) % b = a + b - 1 := Nat.div_add_mod' _ _
    have h2 : (a + b - 1) % b < b := Nat.mod_lt _ hb
    have hq_pos : 0 < (a + b - 1) / b := (Nat.one_le_div_iff hb).2 (by omega)
    have hqb_ge : a ≤ (a + b - 1) / b * b := by omega
    have hqb_lt : ((a + b - 1) / b - 1) * b < a := by
      rw [tsub_mul, one_mul]
      omega
    rw [Nat.ceil_eq_iff (by omega)]
    have hb2 : (0:ℚ) < (b:ℚ) := by exact_mod_cast hb
    constructor
    · rw [lt_div_iff₀ hb2]
      calc (((a + b - 1) / b - 1 : ℕ) : ℚ) * b
          = ((((a + b - 1) / b - 1) * b : ℕ) : ℚ) := by push_cast; ring
        _ < a := by exact_mod_cast hqb_lt
    · rw [div_le_iff₀ hb2]
      calc (a : ℚ) ≤ (((a + b - 1) / b * b : ℕ) : ℚ) := by exact_mod_cast hqb_ge
        _ = (((a + b - 1) / b : ℕ) : ℚ) * b := by push_cast; ring

/-- Claim C3: the pagination fields returned by list are internally
consistent with the returned data: the page of data never holds more than
page * limit records, and totalPages is the ceiling of total / limit under
exact arithmetic. -/
theorem c3_list_pagination_consistent (s : Store) (page limit : Nat)
    (sort : String) (hp : 1 ≤ page) (hl : 0 < limit) :
    (list s page limit sort).data.length ≤ page * limit ∧
    (list s page limit sort).pagination.totalPages
      = ⌈((list s page limit sort).pagination.total : ℚ) / (limit : ℚ)⌉₊ := by
  constructor
  · have h1 : (list s page limit sort).data.length ≤ limit := by
      rw [list]
      exact List.length_take_le _ _
    calc (list s page limit sort).data.length ≤ limit := h1
      _ = 1 * limit := (Nat.one_mul _).symm
      _ ≤ page * limit := Nat.mul_le_mul_right _ hp
  · rw [ceil_rat_of_nat_div _ _ hl]
    rfl

theorem clamp01_nonneg (x : ℚ) : 0 ≤ clamp01 x := le_max_left 0 _

theorem clamp01_le_one (x : ℚ) : clamp01 x ≤ 1 :=
  max_le zero_le_one (min_le_left 1 x)

theorem unit_of_div_le (x y : ℚ) (h0 : 0 ≤ x) (hxy : x ≤ y) :
    inUnitInterval (x / y) := by
  rcases lt_or_le 0 y with hy | hy
  · exact ⟨div_nonneg h0 hy.le, (div_le_one hy).2 hxy⟩
  · have hx0 : x = 0 := le_antisymm (hxy.trans hy) h0
    rw [hx0, zero_div]
    exact ⟨le_refl 0, zero_le_one⟩

theorem sum_clamp_le_length (l : List ℚ) :
    (l.map clamp01).sum ≤ (l.length : ℚ) := by
  induction l with
  | nil => simp
  | cons a as ih =>
    simp only [List.map_cons, List.sum_cons, List.length_cons]
    push_cast
    have h := clamp01_le_one a
    linarith

theorem sum_clamp_nonneg (l : List ℚ) : 0 ≤ (l.map clamp01).sum := by
  apply List.sum_nonneg
  intro a ha
  obtain ⟨b, _, rfl⟩ := List.mem_map.1 ha
  exact clamp01_nonneg b

/-- Claim C6: every reputation score and every confidence value the modelled
service hands back lies in the closed interval [0, 1]: normalised raw
confidences, contribution-history reputations, and reputation-weighted
aggregate confidences alike. -/
theorem c6_reputation_confidence_bounded (confs : List ℚ)
    (contribs : List (ℚ × ℚ)) (raw : ℚ) :
    inUnitInterval (reputationOf confs) ∧
    inUnitInterval (aggregateConfidence contribs) ∧
    inUnitInterval (clamp01 raw) := by
  refine ⟨?_, ?_, clamp01_nonneg raw, clamp01_le_one raw⟩
  · exact unit_of_div_le _ _ (sum_clamp_nonneg confs)
      ((sum_clamp_le_length confs))
  · apply unit_of_div_le
    · apply List.sum_nonneg
      intro a ha
      obtain ⟨p, _, rfl⟩ := List.mem_map.1 ha
      exact mul_nonneg (clamp01_nonneg p.1) (clamp01_nonneg p.2)
    · apply List.sum_le_sum
      intro p _
      exact mul_le_of_le_one_right (clamp01_nonneg p.1) (clamp01_le_one p.2)

/-- Claim C7 counterexample: the claim quantifies over every example script,
but chatbot-memory.py's top-level handler prints only the message: for an
exception that does carry a code attribute, the handler exits 1 without ever
printing the code line. -/
theorem c7_chatbot_code_unprinted :
    (PyError.mk "boom" (some "E")).code = some "E" ∧
    (chatbotTopHandler (PyError.mk "boom" (some "E"))).exitStatus = 1 ∧
    ¬ printsCode (chatbotTopHandler (PyError.mk "boom" (some "E"))).printed "E" := by
  refine ⟨rfl, rfl, ?_⟩
  intro hmem
  rw [printsCode] at hmem
  simp only [chatbotTopHandler, List.mem_singleton] at hmem
  exact absurd hmem (by decide)

/-- Claim C7 as amended: every exception reaching a top-level handler gets
its message printed and the process exits with status 1 in all five scripts;
the error code, when present, is additionally printed by basic-crud,
multi-agent and predictive-recall, while chatbot-memory and weighted-search
print only the message line. -/
theorem c7_top_level_handlers (e : PyError) :
    (("❌ Error: " ++ e.message) ∈ (basicCrudTopHandler e).printed ∧
      (basicCrudTopHandler e).exitStatus = 1 ∧
      ∀ c, e.code = some c → printsCode (basicCrudTopHandler e).printed c) ∧
    (("❌ Error: " ++ e.message) ∈ (multiAgentTopHandler e).printed ∧
      (multiAgentTopHandler e).exitStatus = 1 ∧
      ∀ c, e.code = some c → printsCode (multiAgentTopHandler e).printed c) ∧
    (("‚ùå Error: " ++ e.message) ∈ (predictiveRecallTopHandler e).printed ∧
      (predictiveRecallTopHandler e).exitStatus = 1 ∧
      ∀ c, e.code = some c → printsCode (predictiveRecallTopHandler e).printed c) ∧
    ((chatbotTopHandler e).printed = ["❌ Error: " ++ e.message] ∧
      (chatbotTopHandler e).exitStatus = 1) ∧
    ((weightedSearchTopHandler e).printed = ["❌ Error: " ++ e.message] ∧
      (weightedSearchTopHandler e).exitStatus = 1) := by
  refine ⟨⟨?_, rfl, ?_⟩, ⟨?_, rfl, ?_⟩, ⟨?_, rfl, ?_⟩, ⟨rfl, rfl⟩, ⟨rfl, rfl⟩⟩
  · simp [basicCrudTopHandler]
  · intro c hc
    simp [basicCrudTopHandler, printsCode, hc]
  · simp [multiAgentTopHandler]
  · intro c hc
    simp [multiAgentTopHandler, printsCode, hc]
  · simp [predictiveRecallTopHandler]
  · intro c hc
    simp [predictiveRecallTopHandler, printsCode, hc]

/-- Claim C8: the chatbot response generator is a total function whose output
depends only on the message: the retrieved context never influences the
generated reply. -/
theorem c8_generate_response_context_independent (message : String)
    (context1 context2 : List SuggestedMemory) :
    generate_response message context1 = generate_response message context2 := rfl

/-- Claim C9: a completed handle_message turn issues exactly one create_batch
call, storing exactly two memories: one of type user_message and one of type
bot_message, both carrying the same user id, the same session id and the same
turn number in their metadata. -/
theorem c9_handle_message_stores_two_memories (startTime : Nat)
    (user_message : String) (turn_number : Nat)
    (suggested : List SuggestedMemory) (ts1 ts2 : String) :
    ∃ u b,
      createBatchesOf (handle_message startTime user_message turn_number suggested ts1 ts2)
        = [[u, b]] ∧
      lookupMeta u.metadata "type" = some (MValue.str "user_message") ∧
      lookupMeta b.metadata "type" = some (MValue.str "bot_message") ∧
      lookupMeta u.metadata "user_id" = some (MValue.str user_id) ∧
      lookupMeta b.metadata "user_id" = some (MValue.str user_id) ∧
      lookupMeta u.metadata "session_id" = some (MValue.str (session_id startTime)) ∧
      lookupMeta b.metadata "session_id" = some (MValue.str (session_id startTime)) ∧
      lookupMeta u.metadata "turn" = some (MValue.num turn_number) ∧
      lookupMeta b.metadata "turn" = some (MValue.num turn_number) := by
  refine ⟨_, _, rfl, ?_, ?_, ?_, ?_, ?_, ?_, ?_, ?_⟩ <;> rfl

/-- Claim C10: the fallback memories.search call of the hybrid step runs if
and only if no suggested memory has confidence strictly above 0.9; when at
least one such memory exists, the step uses exactly the predicted
high-confidence memories and issues no search. -/
theorem c10_hybrid_fallback_iff_no_high_confidence (sug : List SuggestedMemory) :
    ((∃ q l, hybridStep sug = HybridAction.fallbackSearch q l) ↔
      ∀ m ∈ sug, m.confidence ≤ (9:ℚ)/10) ∧
    ((∃ m ∈ sug, (9:ℚ)/10 < m.confidence) →
      hybridStep sug = HybridAction.usePredicted
        (sug.filter (fun m => decide ((9:ℚ)/10 < m.confidence)))) := by
  by_cases h : (sug.filter (fun m => decide ((9:ℚ)/10 < m.confidence))).isEmpty = true
  · have hnil : sug.filter (fun m => decide ((9:ℚ)/10 < m.confidence)) = [] :=
      List.isEmpty_iff.1 h
    have hall : ∀ m ∈ sug, m.confidence ≤ (9:ℚ)/10 := by
      intro m hm
      have h2 := List.filter_eq_nil_iff.1 hnil m hm
      simpa using h2
    have hfall : hybridStep sug = HybridAction.fallbackSearch "rate limits" 3 := by
      rw [hybridStep]
      simp only [h, if_pos]
    refine ⟨⟨fun _ => hall, fun _ => ⟨"rate limits", 3, hfall⟩⟩, ?_⟩
    rintro ⟨m, hm, hconf⟩
    exact absurd hconf (not_lt.2 (hall m hm))
  · have huse : hybridStep sug = HybridAction.usePredicted
        (sug.filter (fun m => decide ((9:ℚ)/10 < m.confidence))) := by
      rw [hybridStep]
      simp only [h, if_neg, Bool.false_eq_true, not_false_eq_true]
    refine ⟨⟨?_, ?_⟩, fun _ => huse⟩
    · rintro ⟨q, l, hq⟩
      rw [huse] at hq
      exact absurd hq (by simp)
    · intro hall
      exfalso
      apply h
      have hnil : sug.filter (fun m => decide ((9:ℚ)/10 < m.confidence)) = [] := by
        rw [List.filter_eq_nil_iff]
        intro m hm
        simpa using not_lt.2 (hall m hm)
      rw [hnil]
      rfl

/-- Witness for claim C2 at a concrete two-memory search with a 0.7
threshold. -/
theorem c2_search_sorted_and_min_score_witness :
    List.Sorted scoreGE
      (search [wMemA, wMemB] wScoreFn wCombine (7/10, 3/10) 5 (some (7/10))) ∧
    ∀ r ∈ search [wMemA, wMemB] wScoreFn wCombine (7/10, 3/10) 5 (some (7/10)),
      (7:ℚ)/10 ≤ r.score := by
  have h := c2_search_sorted_and_min_score [wMemA, wMemB] wScoreFn wCombine
    (7/10, 3/10) 5 (some (7/10))
  exact ⟨h.1, h.2 (7/10) rfl⟩

/-- Witness for claim C3 at a concrete three-memory store, page 1, limit 2. -/
theorem c3_list_pagination_consistent_witness :
    (list wStore3 1 2 "-createdAt").data.length ≤ 1 * 2 ∧
    (list wStore3 1 2 "-createdAt").pagination.totalPages
      = ⌈((list wStore3 1 2 "-createdAt").pagination.total : ℚ) / (2 : ℚ)⌉₊ :=
  c3_list_pagination_consistent wStore3 1 2 "-createdAt" (by decide) (by decide)

/-- Witness for claim C4: updating importance leaves the category key
untouched on a concrete store. -/
theorem c4_update_preserves_unsupplied_fields_witness :
    ∃ s2 m2,
      update wStore4 0 none (some [("importance", MValue.str "critical")])
        = Except.ok (s2, m2) ∧
      m2.id = wMemUpd.id ∧ m2.created_at = wMemUpd.created_at ∧
      ((none : Option String) = none → m2.content = wMemUpd.content) ∧
      lookupMeta m2.metadata "category" = some (MValue.str "user_preferences") :=
  c4_update_preserves_unsupplied_fields wStore4 0 none
    [("importance", MValue.str "critical")] "category"
    (MValue.str "user_preferences") wMemUpd rfl rfl rfl

/-- Witness for claim C5 at a concrete create on the empty store. -/
theorem c5_create_then_get_roundtrip_witness :
    get wStore5b wMem5.id = Except.ok wMem5 ∧
    wMem5.content = "User prefers dark mode interface" ∧
    wMem5.metadata = [("category", MValue.str "user_preferences")] ∧
    wMem5.created_at ≠ "" :=
  c5_create_then_get_roundtrip wStore5 "User prefers dark mode interface"
    [("category", MValue.str "user_preferences")] wStore5b wMem5 rfl

/-- Witness for claim C7 (amended) at a concrete exception carrying code E. -/
theorem c7_top_level_handlers_witness :
    printsCode (basicCrudTopHandler (PyError.mk "boom" (some "E"))).printed "E" ∧
    printsCode (multiAgentTopHandler (PyError.mk "boom" (some "E"))).printed "E" ∧
    printsCode (predictiveRecallTopHandler (PyError.mk "boom" (some "E"))).printed "E" ∧
    (chatbotTopHandler (PyError.mk "boom" (some "E"))).printed
      = ["❌ Error: " ++ "boom"] ∧
    (weightedSearchTopHandler (PyError.mk "boom" (some "E"))).printed
      = ["❌ Error: " ++ "boom"] := by
  have h := c7_top_level_handlers (PyError.mk "boom" (some "E"))
  exact ⟨h.1.2.2 "E" rfl, h.2.1.2.2 "E" rfl, h.2.2.1.2.2 "E" rfl,
    h.2.2.2.1.1, h.2.2.2.2.1⟩

/-- Witness for claim C10: with one 0.95-confidence suggestion the hybrid
step uses the predicted memories and issues no search. -/
theorem c10_hybrid_fallback_iff_no_high_confidence_witness :
    hybridStep [wSug] = HybridAction.usePredicted
      ([wSug].filter (fun m => decide ((9:ℚ)/10 < m.confidence))) :=
  (c10_hybrid_fallback_iff_no_high_confidence [wSug]).2
    ⟨wSug, by simp, by norm_num [wSug]⟩

end RecallBricks
